import Mathlib

/-!
Verification development for the okxcct arbitrage-detection engine
(package `gookx`).  The Go source is shallowly embedded: `float64`
values are modelled as exact rationals `ℚ`, decimal price strings are
parsed at the data-model boundary into `Option ℚ` (`none` models an
empty or non-numeric string, i.e. a `strconv.ParseFloat` error),
fallible functions return `Option`, and Go maps are modelled as
association lists with last-write-wins insertion.
-/

namespace Gookx

/-- Instrument mirrors the Go `Instrument` struct.  The numeric mark
price field `MarkPx` arrives as decimal text in Go and is modelled
here as `Option ℚ` (parsed at the boundary); the open-ended `Extra`
bag is passthrough-only and never read by core logic, so it is
omitted from the embedding. -/
structure Instrument where
  InstID   : String
  InstType : String
  BaseCcy  : String
  QuoteCcy : String
  State    : String
  MarkPx   : Option ℚ
  Lever    : String
  LotSz    : String
  TickSz   : String
  MinSz    : String
  MaxSz    : String
deriving DecidableEq, Repr

/-- MatchingSymbol mirrors the Go `MatchingSymbol` struct. -/
structure MatchingSymbol where
  BaseSymbol : String
  Margin     : Instrument
  Swap       : Instrument
deriving DecidableEq, Repr

/-- DiffResult mirrors the Go `DiffResult` struct. -/
structure DiffResult where
  BaseSymbol    : String
  MarginMarkPx  : ℚ
  SwapMarkPx    : ℚ
  PercentDiff   : ℚ
  ActualDiff    : ℚ
  IsContango    : Bool
  TermStructure : String
deriving DecidableEq, Repr

/-- FeeInfo mirrors the Go `FeeInfo` struct (taker fee fractions and
hourly margin borrow rate). -/
structure FeeInfo where
  SpotTaker    : ℚ
  SwapTaker    : ℚ
  MarginBorrow : ℚ
deriving DecidableEq, Repr

/-- OrderBookLevel mirrors the Go `OrderBookLevel` struct. -/
structure OrderBookLevel where
  Price  : ℚ
  Size   : ℚ
  Orders : Int
deriving DecidableEq, Repr

/-- OrderBook mirrors the Go `OrderBook` struct. -/
structure OrderBook where
  InstID : String
  Bids   : List OrderBookLevel
  Asks   : List OrderBookLevel
  TS     : String
deriving DecidableEq, Repr

/-- WeightedPriceResult mirrors the Go `WeightedPriceResult` struct. -/
structure WeightedPriceResult where
  Symbol             : String
  Side               : String
  TradeSize          : ℚ
  WeightedPrice      : ℚ
  TotalCost          : ℚ
  Liquidity          : ℚ
  HasEnoughLiquidity : Bool
  Slippage           : ℚ
deriving DecidableEq, Repr

/-- RealArbitrageResult mirrors the Go `RealArbitrageResult` struct. -/
structure RealArbitrageResult where
  BaseSymbol         : String
  MarginBuyPrice     : ℚ
  MarginSellPrice    : ℚ
  SwapBuyPrice       : ℚ
  SwapSellPrice      : ℚ
  PercentDiff        : ℚ
  ActualDiff         : ℚ
  IsContango         : Bool
  TermStructure      : String
  MarginLiquidity    : ℚ
  SwapLiquidity      : ℚ
  HasEnoughLiquidity : Bool
  MarginSlippage     : ℚ
  SwapSlippage       : ℚ
deriving DecidableEq, Repr

/-- TradingConfig mirrors the Go `TradingConfig` struct. -/
structure TradingConfig where
  TradeSizeUSD    : ℚ
  MinLiquidityUSD : ℚ
  MaxSlippage     : ℚ
  OrderBookDepth  : Int
deriving DecidableEq, Repr

/-- ParseFloat models Go `ParseFloat` over boundary-parsed prices: a
string that failed to parse (or was empty) is `none` and yields the
error case, otherwise the already-parsed rational is returned. -/
def ParseFloat (s : Option ℚ) : Option ℚ := s

/-- loop of Go `CalculateWeightedPrice` (part_002 lines 379-393): walk
the levels best-to-worst, filling up to the remaining size, with an
early stop once fully filled.  Returns the final
`(totalCost, remainingSize, liquidity)` accumulator triple. -/
def fillLevels : List OrderBookLevel → ℚ → ℚ → ℚ → ℚ × ℚ × ℚ
  | [], totalCost, remainingSize, liquidity => (totalCost, remainingSize, liquidity)
  | level :: rest, totalCost, remainingSize, liquidity =>
    if remainingSize ≤ 0 then (totalCost, remainingSize, liquidity)
    else
      let levelSize := if remainingSize < level.Size then remainingSize else level.Size
      let cost := levelSize * level.Price
      fillLevels rest (totalCost + cost) (remainingSize - levelSize)
        (liquidity + levelSize * level.Price)

/-- CalculateWeightedPrice mirrors the Go function of the same name
(part_002 lines 354-429).  The Go error returns (`no ask orders
available`, `no bid orders available`, `invalid side`) are modelled as
`none`. -/
def CalculateWeightedPrice (orderBook : OrderBook) (side : String) (tradeSize : ℚ) :
    Option WeightedPriceResult :=
  let pick : Option (List OrderBookLevel × ℚ) :=
    if side = "buy" then
      match orderBook.Asks with
      | [] => none
      | l :: rest => some (l :: rest, l.Price)
    else if side = "sell" then
      match orderBook.Bids with
      | [] => none
      | l :: rest => some (l :: rest, l.Price)
    else none
  match pick with
  | none => none
  | some (levels, bestPrice) =>
    let acc := fillLevels levels 0 tradeSize 0
    let totalCost := acc.1
    let remainingSize := acc.2.1
    let liquidity := acc.2.2
    if remainingSize > 0 then
      some { Symbol := orderBook.InstID, Side := side, TradeSize := tradeSize,
             WeightedPrice := 0, TotalCost := 0, Liquidity := liquidity,
             HasEnoughLiquidity := false, Slippage := 0 }
    else
      let weightedPrice := totalCost / tradeSize
      let slippage :=
        if side = "buy" then ((weightedPrice - bestPrice) / bestPrice) * 100
        else ((bestPrice - weightedPrice) / bestPrice) * 100
      some { Symbol := orderBook.InstID, Side := side, TradeSize := tradeSize,
             WeightedPrice := weightedPrice, TotalCost := totalCost,
             Liquidity := liquidity, HasEnoughLiquidity := true,
             Slippage := slippage }

/-- helper for Go `strings.Split(instID, "-")`: splitting a character
list around every occurrence of the dash separator (the separator in
the source is the single character "-", for which Go `strings.Split`
splits at each dash, keeping empty fields). -/
def splitOnDash : List Char → List (List Char)
  | [] => [[]]
  | c :: cs =>
    if c = '-' then [] :: splitOnDash cs
    else
      match splitOnDash cs with
      | t :: ts => (c :: t) :: ts
      | [] => [[c]]

/-- ExtractBaseSymbol mirrors the Go function of the same name
(part_001 lines 257-263): take the token before the first "-" when
the identifier has at least two "-"-separated tokens, else return the
identifier unchanged. -/
def ExtractBaseSymbol (instID : String) : String :=
  match splitOnDash instID.data with
  | p :: _ :: _ => String.mk p
  | _ => instID

/-- map-insertion model for Go `marginSymbols[baseSymbol] = inst`:
overwrite the entry when the key is present, else append it.  This is
the last-write-wins semantics of Go map assignment. -/
def upsert : List (String × Instrument) → String → Instrument → List (String × Instrument)
  | [], k, v => [(k, v)]
  | (k', v') :: rest, k, v =>
    if k' = k then (k, v) :: rest else (k', v') :: upsert rest k v

/-- symbol-keyed map built by the first two loops of Go
`FindMatchingSymbols` (part_001 lines 266-275). -/
def buildSymbolMap (insts : List Instrument) : List (String × Instrument) :=
  insts.foldl (fun m inst => upsert m (ExtractBaseSymbol inst.InstID) inst) []

/-- map lookup model for Go `swapSymbols[baseSymbol]` with its `ok`
flag: `none` models a missing key. -/
def lookupSym (m : List (String × Instrument)) (k : String) : Option Instrument :=
  (m.find? (fun p => p.1 = k)).map Prod.snd

/-- lastWithKey insts k is the last instrument of `insts` whose base
symbol is `k` — the instrument that survives last-write-wins map
insertion. -/
def lastWithKey (insts : List Instrument) (k : String) : Option Instrument :=
  insts.foldl (fun acc inst => if ExtractBaseSymbol inst.InstID = k then some inst else acc) none

/-- FindMatchingSymbols mirrors the Go function of the same name
(part_001 lines 265-287): build a key-to-instrument lookup per venue,
then emit a `MatchingSymbol` for every key present in both lookups.
(Go iterates the margin map in unspecified order; the embedding
iterates it in insertion order, and no claim concerns the order.) -/
def FindMatchingSymbols (marginInstruments swapInstruments : List Instrument) :
    List MatchingSymbol :=
  let marginSymbols := buildSymbolMap marginInstruments
  let swapSymbols := buildSymbolMap swapInstruments
  marginSymbols.filterMap (fun p =>
    (lookupSym swapSymbols p.1).map (fun swapInst =>
      { BaseSymbol := p.1, Margin := p.2, Swap := swapInst }))

/-- loop body of Go `CalculateTopMarkPxDiffs` (part_001 lines
299-334): parse the two mark prices (a parse failure skips the pair),
discard non-positive prices, compute the absolute and percentage
difference, discard when below `minDiff`, and classify the term
structure. -/
def computeDiff (minDiff : ℚ) (m : MatchingSymbol) : Option DiffResult :=
  match ParseFloat m.Margin.MarkPx, ParseFloat m.Swap.MarkPx with
  | some marginPx, some swapPx =>
    if marginPx ≤ 0 ∨ swapPx ≤ 0 then none
    else
      let actualDiff := swapPx - marginPx
      let meanPx := (marginPx + swapPx) / 2
      let percentDiff := 100 * |actualDiff| / meanPx
      if percentDiff < minDiff then none
      else
        some { BaseSymbol := m.BaseSymbol, MarginMarkPx := marginPx,
               SwapMarkPx := swapPx, PercentDiff := percentDiff,
               ActualDiff := actualDiff, IsContango := decide (actualDiff > 0),
               TermStructure := if actualDiff > 0 then "Contango" else "Backwardation" }
  | _, _ => none

/-- ordering used by the two `sort.Slice` calls in the source, whose
`less` comparator is `PercentDiff i > PercentDiff j`: the sorted
order it establishes is non-increasing `PercentDiff`. -/
def pdDescOrder {α : Type} (f : α → ℚ) (a b : α) : Prop := f b ≤ f a

instance {α : Type} (f : α → ℚ) : DecidableRel (pdDescOrder f) :=
  fun a b => (inferInstance : Decidable (f b ≤ f a))

instance {α : Type} (f : α → ℚ) : IsTotal α (pdDescOrder f) :=
  ⟨fun a b => le_total (f b) (f a)⟩

instance {α : Type} (f : α → ℚ) : IsTrans α (pdDescOrder f) :=
  ⟨fun _ _ _ h h' => le_trans h' h⟩

/-- CalculateTopMarkPxDiffs mirrors the Go function of the same name
(part_001 lines 296-343): compute a diff per matched pair, sort the
survivors in non-increasing `PercentDiff` order (`sort.Slice` with a
strict greater-than comparator), and truncate to `topN`.  The Go
error return is always nil and is dropped. -/
def CalculateTopMarkPxDiffs (matchList : List MatchingSymbol) (topN : ℕ) (minDiff : ℚ) :
    List DiffResult :=
  (((matchList.filterMap (computeDiff minDiff)).insertionSort
      (pdDescOrder DiffResult.PercentDiff)).take topN)

/-- EstimateFees mirrors the Go function of the same name (part_001
lines 397-408).  `borrowRates` models the Go map with its `ok` flag,
so a missing key is `none`. -/
def EstimateFees (diff : DiffResult) (fees : FeeInfo) (borrowRates : String → Option ℚ) : ℚ :=
  let fee := fees.SpotTaker * 2 + fees.SwapTaker * 2
  if diff.TermStructure = "Backwardation" then
    let borrow :=
      match borrowRates diff.BaseSymbol with
      | some r => if r > 0 then r else fees.MarginBorrow
      | none => fees.MarginBorrow
    fee + borrow * 1
  else fee

/-- per-pair inputs of `CalculateRealArbitrageOpportunities`: the
matched pair together with the two order books fetched for it.
`none` models a failed `FetchOrderBook` call (the Go loop skips the
pair with a warning in that case). -/
structure PairBooks where
  pair       : MatchingSymbol
  marginBook : Option OrderBook
  swapBook   : Option OrderBook
deriving DecidableEq, Repr

/-- loop body of Go `CalculateRealArbitrageOpportunities` (part_001
lines 414-526): given a matched pair and its fetched order books,
derive the base-asset trade size from the margin mark price, price
the four legs, reject on missing liquidity or excessive slippage,
compute the contango and backwardation percentages, and emit the
chosen direction when it is positive. -/
def evalPair (config : TradingConfig) (e : PairBooks) : Option RealArbitrageResult :=
  match e.marginBook, e.swapBook with
  | some marginOrderBook, some swapOrderBook =>
    match ParseFloat e.pair.Margin.MarkPx with
    | none => none
    | some marginPrice =>
      if marginPrice ≤ 0 then none
      else
        let tradeSizeBase := config.TradeSizeUSD / marginPrice
        match CalculateWeightedPrice marginOrderBook "buy" tradeSizeBase,
              CalculateWeightedPrice marginOrderBook "sell" tradeSizeBase,
              CalculateWeightedPrice swapOrderBook "buy" tradeSizeBase,
              CalculateWeightedPrice swapOrderBook "sell" tradeSizeBase with
        | some marginBuy, some marginSell, some swapBuy, some swapSell =>
          let hasEnoughLiquidity := marginBuy.HasEnoughLiquidity ∧ marginSell.HasEnoughLiquidity ∧
            swapBuy.HasEnoughLiquidity ∧ swapSell.HasEnoughLiquidity
          if ¬ hasEnoughLiquidity then none
          else if marginBuy.Slippage > config.MaxSlippage ∨ marginSell.Slippage > config.MaxSlippage ∨
              swapBuy.Slippage > config.MaxSlippage ∨ swapSell.Slippage > config.MaxSlippage then none
          else
            let contangoDiff := swapSell.WeightedPrice - marginBuy.WeightedPrice
            let contangoPercent :=
              (contangoDiff / ((swapSell.WeightedPrice + marginBuy.WeightedPrice) / 2)) * 100
            let backwardationDiff := marginSell.WeightedPrice - swapBuy.WeightedPrice
            let backwardationPercent :=
              (backwardationDiff / ((marginSell.WeightedPrice + swapBuy.WeightedPrice) / 2)) * 100
            if contangoPercent > backwardationPercent ∧ contangoPercent > 0 then
              some { BaseSymbol := e.pair.BaseSymbol,
                     MarginBuyPrice := marginBuy.WeightedPrice,
                     MarginSellPrice := marginSell.WeightedPrice,
                     SwapBuyPrice := swapBuy.WeightedPrice,
                     SwapSellPrice := swapSell.WeightedPrice,
                     PercentDiff := contangoPercent, ActualDiff := contangoDiff,
                     IsContango := true, TermStructure := "Contango",
                     MarginLiquidity := marginBuy.Liquidity,
                     SwapLiquidity := swapSell.Liquidity,
                     HasEnoughLiquidity := true,
                     MarginSlippage := marginBuy.Slippage,
                     SwapSlippage := swapSell.Slippage }
            else if backwardationPercent > 0 then
              some { BaseSymbol := e.pair.BaseSymbol,
                     MarginBuyPrice := marginBuy.WeightedPrice,
                     MarginSellPrice := marginSell.WeightedPrice,
                     SwapBuyPrice := swapBuy.WeightedPrice,
                     SwapSellPrice := swapSell.WeightedPrice,
                     PercentDiff := backwardationPercent, ActualDiff := backwardationDiff,
                     IsContango := false, TermStructure := "Backwardation",
                     MarginLiquidity := marginSell.Liquidity,
                     SwapLiquidity := swapBuy.Liquidity,
                     HasEnoughLiquidity := true,
                     MarginSlippage := marginSell.Slippage,
                     SwapSlippage := swapBuy.Slippage }
            else none
        | _, _, _, _ => none
  | _, _ => none

/-- CalculateRealArbitrageOpportunities mirrors the Go function of the
same name (part_001 lines 411-534), over pre-fetched order books:
evaluate each matched pair and sort the surviving results in
non-increasing `PercentDiff` order (`sort.Slice` with a strict
greater-than comparator).  The Go error return is always nil and is
dropped. -/
def CalculateRealArbitrageOpportunities (entries : List PairBooks) (config : TradingConfig) :
    List RealArbitrageResult :=
  (entries.filterMap (evalPair config)).insertionSort
    (pdDescOrder RealArbitrageResult.PercentDiff)

/-- output filter of Go `PrintTopMarkPxDiffsWithFundingAndFees`
(part_001 lines 379-394): a row is printed unless
`PercentDiff - fees*100 < 0.06`.  `feesMap` models the Go map, whose
zero value for a missing key is 0. -/
def printedTopMarkPxDiffs (diffs : List DiffResult) (feesMap : String → Option ℚ) :
    List DiffResult :=
  diffs.filter (fun d => ¬ (d.PercentDiff - (feesMap d.BaseSymbol).getD 0 * 100 < 0.06))

/-- output filter of Go `PrintRealArbitrageResults` (part_001 lines
551-569): a row is printed unless `PercentDiff - fees*100 < 0.06`. -/
def printedRealArbitrageResults (results : List RealArbitrageResult)
    (feesMap : String → Option ℚ) : List RealArbitrageResult :=
  results.filter (fun r => ¬ (r.PercentDiff - (feesMap r.BaseSymbol).getD 0 * 100 < 0.06))

end Gookx

namespace Gookx

theorem sizesSum_nonneg {levels : List OrderBookLevel}
    (h : ∀ l ∈ levels, 0 ≤ l.Size) : 0 ≤ (levels.map OrderBookLevel.Size).sum := by
  apply List.sum_nonneg
  intro x hx
  rcases List.mem_map.mp hx with ⟨l, hl, rfl⟩
  exact h l hl

theorem fillLevels_of_nonpos (levels : List OrderBookLevel) (c t q : ℚ) (ht : t ≤ 0) :
    fillLevels levels c t q = (c, t, q) := by
  cases levels with
  | nil => rfl
  | cons l rest => simp [fillLevels, ht]

theorem fillLevels_remaining (levels : List OrderBookLevel) :
    ∀ c t q : ℚ, (∀ l ∈ levels, 0 ≤ l.Size) → 0 ≤ t →
      (fillLevels levels c t q).2.1 = max (t - (levels.map OrderBookLevel.Size).sum) 0 := by
  induction levels with
  | nil =>
    intro c t q _ ht
    simp [fillLevels, max_eq_left ht]
  | cons l rest ih =>
    intro c t q hsz ht
    have hl : 0 ≤ l.Size := hsz l (List.mem_cons_self l rest)
    have hrest : ∀ x ∈ rest, 0 ≤ x.Size := fun x hx => hsz x (List.mem_cons_of_mem l hx)
    have hsum : 0 ≤ (rest.map OrderBookLevel.Size).sum := sizesSum_nonneg hrest
    by_cases h0 : t ≤ 0
    · have ht0 : t = 0 := le_antisymm h0 ht
      subst ht0
      rw [fillLevels_of_nonpos _ _ _ _ le_rfl]
      simp only [List.map_cons, List.sum_cons]
      rw [max_eq_right (by linarith)]
    · push_neg at h0
      by_cases hls : t < l.Size
      · simp only [fillLevels, if_neg (not_le.mpr h0), if_pos hls]
        rw [show t - t = 0 by ring, ih _ 0 _ hrest le_rfl]
        simp only [List.map_cons, List.sum_cons]
        rw [max_eq_right (by linarith), max_eq_right (by linarith)]
      · push_neg at hls
        simp only [fillLevels, if_neg (not_le.mpr h0), if_neg (not_lt.mpr hls)]
        rw [ih _ (t - l.Size) _ hrest (by linarith)]
        simp only [List.map_cons, List.sum_cons]
        congr 1
        ring

theorem fillLevels_remaining_eq_zero (levels : List OrderBookLevel) (c t q : ℚ)
    (hsz : ∀ l ∈ levels, 0 ≤ l.Size) (ht : 0 ≤ t)
    (hsum : t ≤ (levels.map OrderBookLevel.Size).sum) :
    (fillLevels levels c t q).2.1 = 0 := by
  rw [fillLevels_remaining levels c t q hsz ht]
  exact max_eq_right (by linarith)

theorem fillLevels_remaining_pos (levels : List OrderBookLevel) (c t q : ℚ)
    (hsz : ∀ l ∈ levels, 0 ≤ l.Size)
    (hsum : (levels.map OrderBookLevel.Size).sum < t) :
    0 < (fillLevels levels c t q).2.1 := by
  have h0 : 0 ≤ t := le_of_lt (lt_of_le_of_lt (sizesSum_nonneg hsz) hsum)
  rw [fillLevels_remaining levels c t q hsz h0]
  rw [max_eq_left (by linarith)]
  linarith

theorem CalculateWeightedPrice_buy_filled (book : OrderBook) (l : OrderBookLevel)
    (rest : List OrderBookLevel) (t : ℚ) (hA : book.Asks = l :: rest)
    (hsz : ∀ x ∈ l :: rest, 0 ≤ x.Size) (ht : 0 ≤ t)
    (hsum : t ≤ ((l :: rest).map OrderBookLevel.Size).sum) :
    CalculateWeightedPrice book "buy" t =
      some { Symbol := book.InstID, Side := "buy", TradeSize := t,
             WeightedPrice := (fillLevels (l :: rest) 0 t 0).1 / t,
             TotalCost := (fillLevels (l :: rest) 0 t 0).1,
             Liquidity := (fillLevels (l :: rest) 0 t 0).2.2,
             HasEnoughLiquidity := true,
             Slippage := (((fillLevels (l :: rest) 0 t 0).1 / t - l.Price) / l.Price) * 100 } := by
  have hrem : (fillLevels (l :: rest) 0 t 0).2.1 = 0 :=
    fillLevels_remaining_eq_zero _ _ _ _ hsz ht hsum
  simp [CalculateWeightedPrice, hA, hrem]

theorem CalculateWeightedPrice_sell_filled (book : OrderBook) (l : OrderBookLevel)
    (rest : List OrderBookLevel) (t : ℚ) (hB : book.Bids = l :: rest)
    (hsz : ∀ x ∈ l :: rest, 0 ≤ x.Size) (ht : 0 ≤ t)
    (hsum : t ≤ ((l :: rest).map OrderBookLevel.Size).sum) :
    CalculateWeightedPrice book "sell" t =
      some { Symbol := book.InstID, Side := "sell", TradeSize := t,
             WeightedPrice := (fillLevels (l :: rest) 0 t 0).1 / t,
             TotalCost := (fillLevels (l :: rest) 0 t 0).1,
             Liquidity := (fillLevels (l :: rest) 0 t 0).2.2,
             HasEnoughLiquidity := true,
             Slippage := ((l.Price - (fillLevels (l :: rest) 0 t 0).1 / t) / l.Price) * 100 } := by
  have hrem : (fillLevels (l :: rest) 0 t 0).2.1 = 0 :=
    fillLevels_remaining_eq_zero _ _ _ _ hsz ht hsum
  simp [CalculateWeightedPrice, hB, hrem]

theorem CalculateWeightedPrice_buy_short (book : OrderBook) (l : OrderBookLevel)
    (rest : List OrderBookLevel) (t : ℚ) (hA : book.Asks = l :: rest)
    (hsz : ∀ x ∈ l :: rest, 0 ≤ x.Size)
    (hsum : ((l :: rest).map OrderBookLevel.Size).sum < t) :
    CalculateWeightedPrice book "buy" t =
      some { Symbol := book.InstID, Side := "buy", TradeSize := t,
             WeightedPrice := 0, TotalCost := 0,
             Liquidity := (fillLevels (l :: rest) 0 t 0).2.2,
             HasEnoughLiquidity := false, Slippage := 0 } := by
  have hrem : 0 < (fillLevels (l :: rest) 0 t 0).2.1 :=
    fillLevels_remaining_pos _ _ _ _ hsz hsum
  simp [CalculateWeightedPrice, hA, hrem]

theorem CalculateWeightedPrice_sell_short (book : OrderBook) (l : OrderBookLevel)
    (rest : List OrderBookLevel) (t : ℚ) (hB : book.Bids = l :: rest)
    (hsz : ∀ x ∈ l :: rest, 0 ≤ x.Size)
    (hsum : ((l :: rest).map OrderBookLevel.Size).sum < t) :
    CalculateWeightedPrice book "sell" t =
      some { Symbol := book.InstID, Side := "sell", TradeSize := t,
             WeightedPrice := 0, TotalCost := 0,
             Liquidity := (fillLevels (l :: rest) 0 t 0).2.2,
             HasEnoughLiquidity := false, Slippage := 0 } := by
  have hrem : 0 < (fillLevels (l :: rest) 0 t 0).2.1 :=
    fillLevels_remaining_pos _ _ _ _ hsz hsum
  simp [CalculateWeightedPrice, hB, hrem]

/-- C2: for every order book whose relevant side (asks for buy, bids
for sell) is non-empty with cumulative size at least the positive
requested size, `CalculateWeightedPrice` reports sufficient
liquidity, a weighted price equal to the accumulated walk cost
divided by the requested size, and slippage measured from the best
price: `(weightedPrice-bestPrice)/bestPrice*100` for buys and
`(bestPrice-weightedPrice)/bestPrice*100` for sells. -/
theorem C2_weightedPrice_enough_liquidity (book : OrderBook) (l : OrderBookLevel)
    (rest : List OrderBookLevel) (t : ℚ)
    (hsz : ∀ x ∈ l :: rest, 0 ≤ x.Size) (ht : 0 < t)
    (hsum : t ≤ ((l :: rest).map OrderBookLevel.Size).sum) :
    (book.Asks = l :: rest →
      CalculateWeightedPrice book "buy" t =
        some { Symbol := book.InstID, Side := "buy", TradeSize := t,
               WeightedPrice := (fillLevels (l :: rest) 0 t 0).1 / t,
               TotalCost := (fillLevels (l :: rest) 0 t 0).1,
               Liquidity := (fillLevels (l :: rest) 0 t 0).2.2,
               HasEnoughLiquidity := true,
               Slippage := (((fillLevels (l :: rest) 0 t 0).1 / t - l.Price) / l.Price) * 100 }) ∧
    (book.Bids = l :: rest →
      CalculateWeightedPrice book "sell" t =
        some { Symbol := book.InstID, Side := "sell", TradeSize := t,
               WeightedPrice := (fillLevels (l :: rest) 0 t 0).1 / t,
               TotalCost := (fillLevels (l :: rest) 0 t 0).1,
               Liquidity := (fillLevels (l :: rest) 0 t 0).2.2,
               HasEnoughLiquidity := true,
               Slippage := ((l.Price - (fillLevels (l :: rest) 0 t 0).1 / t) / l.Price) * 100 }) :=
  ⟨fun hA => CalculateWeightedPrice_buy_filled book l rest t hA hsz (le_of_lt ht) hsum,
   fun hB => CalculateWeightedPrice_sell_filled book l rest t hB hsz (le_of_lt ht) hsum⟩

/-- witness for C2, which is exactly Scenario 3 of the specification:
asks `[(100,1),(101,2)]` and a requested buy size of 2 fill 1@100 and
1@101, giving `totalCost = 201`, `weightedPrice = 100.5`,
`liquidity = 201`, and `slippage = 0.5%`. -/
theorem C2_weightedPrice_enough_liquidity_witness :
    CalculateWeightedPrice
      { InstID := "S3", Bids := [], Asks := [⟨100, 1, 1⟩, ⟨101, 2, 1⟩], TS := "" } "buy" 2 =
    some { Symbol := "S3", Side := "buy", TradeSize := 2, WeightedPrice := 100.5,
           TotalCost := 201, Liquidity := 201, HasEnoughLiquidity := true,
           Slippage := 0.5 } := by
  have h := (C2_weightedPrice_enough_liquidity
      { InstID := "S3", Bids := [], Asks := [⟨100, 1, 1⟩, ⟨101, 2, 1⟩], TS := "" }
      ⟨100, 1, 1⟩ [⟨101, 2, 1⟩] 2
      (by intro x hx; simp only [List.mem_cons, List.not_mem_nil, or_false] at hx
          rcases hx with rfl | rfl <;> norm_num)
      (by norm_num) (by norm_num)).1 rfl
  rw [h]
  norm_num [fillLevels]

/-- C3: when the relevant side is non-empty but its cumulative size is
strictly smaller than the requested size, `CalculateWeightedPrice`
reports `hasEnoughLiquidity = false` and `weightedPrice = 0`
(no partial price), whatever was filled along the way. -/
theorem C3_weightedPrice_insufficient_liquidity (book : OrderBook) (l : OrderBookLevel)
    (rest : List OrderBookLevel) (t : ℚ)
    (hsz : ∀ x ∈ l :: rest, 0 ≤ x.Size)
    (hsum : ((l :: rest).map OrderBookLevel.Size).sum < t) :
    (book.Asks = l :: rest →
      CalculateWeightedPrice book "buy" t =
        some { Symbol := book.InstID, Side := "buy", TradeSize := t,
               WeightedPrice := 0, TotalCost := 0,
               Liquidity := (fillLevels (l :: rest) 0 t 0).2.2,
               HasEnoughLiquidity := false, Slippage := 0 }) ∧
    (book.Bids = l :: rest →
      CalculateWeightedPrice book "sell" t =
        some { Symbol := book.InstID, Side := "sell", TradeSize := t,
               WeightedPrice := 0, TotalCost := 0,
               Liquidity := (fillLevels (l :: rest) 0 t 0).2.2,
               HasEnoughLiquidity := false, Slippage := 0 }) :=
  ⟨fun hA => CalculateWeightedPrice_buy_short book l rest t hA hsz hsum,
   fun hB => CalculateWeightedPrice_sell_short book l rest t hB hsz hsum⟩

/-- witness for C3, which is exactly Scenario 4 of the specification:
asks `[(100,1)]` and a requested buy size of 5 yield
`hasEnoughLiquidity = false` and `weightedPrice = 0`. -/
theorem C3_weightedPrice_insufficient_liquidity_witness :
    CalculateWeightedPrice
      { InstID := "S4", Bids := [], Asks := [⟨100, 1, 1⟩], TS := "" } "buy" 5 =
    some { Symbol := "S4", Side := "buy", TradeSize := 5, WeightedPrice := 0,
           TotalCost := 0, Liquidity := 100, HasEnoughLiquidity := false,
           Slippage := 0 } := by
  have h := (C3_weightedPrice_insufficient_liquidity
      { InstID := "S4", Bids := [], Asks := [⟨100, 1, 1⟩], TS := "" }
      ⟨100, 1, 1⟩ [] 5
      (by intro x hx; simp only [List.mem_cons, List.not_mem_nil, or_false] at hx
          rcases hx with rfl; norm_num)
      (by norm_num)).1 rfl
  rw [h]
  norm_num [fillLevels]

/-- counterexample to C1 as stated: two matched pairs with identical
prices (margin 1, swap 2) both yield `percentDiff = 200/3`, so the
output of `CalculateTopMarkPxDiffs` contains two adjacent results
with equal `PercentDiff` and is therefore not strictly descending. -/
theorem C1_counterexample :
    ¬ List.Chain' (fun a b => b.PercentDiff < a.PercentDiff)
        (CalculateTopMarkPxDiffs
          [⟨"AAA", ⟨"AAA-USDT", "MARGIN", "AAA", "USDT", "live", some 1, "", "", "", "", ""⟩,
                   ⟨"AAA-USDT-SWAP", "SWAP", "AAA", "USDT", "live", some 2, "", "", "", "", ""⟩⟩,
           ⟨"BBB", ⟨"BBB-USDT", "MARGIN", "BBB", "USDT", "live", some 1, "", "", "", "", ""⟩,
                   ⟨"BBB-USDT-SWAP", "SWAP", "BBB", "USDT", "live", some 2, "", "", "", "", ""⟩⟩]
          10 0) := by
  have hcalc : CalculateTopMarkPxDiffs
      [⟨"AAA", ⟨"AAA-USDT", "MARGIN", "AAA", "USDT", "live", some 1, "", "", "", "", ""⟩,
               ⟨"AAA-USDT-SWAP", "SWAP", "AAA", "USDT", "live", some 2, "", "", "", "", ""⟩⟩,
       ⟨"BBB", ⟨"BBB-USDT", "MARGIN", "BBB", "USDT", "live", some 1, "", "", "", "", ""⟩,
               ⟨"BBB-USDT-SWAP", "SWAP", "BBB", "USDT", "live", some 2, "", "", "", "", ""⟩⟩]
      10 0 =
      [⟨"AAA", 1, 2, 200/3, 1, true, "Contango"⟩,
       ⟨"BBB", 1, 2, 200/3, 1, true, "Contango"⟩] := by
    norm_num [CalculateTopMarkPxDiffs, computeDiff, ParseFloat, List.filterMap_cons,
      List.insertionSort, List.orderedInsert, pdDescOrder]
  rw [hcalc]
  simp only [List.chain'_cons, List.chain'_singleton, and_true]
  norm_num

/-- C1 as amended: the result lists of `CalculateTopMarkPxDiffs` and
`CalculateRealArbitrageOpportunities` are sorted in non-increasing
(descending, ties allowed) order of `PercentDiff` — strict descent
fails on ties, and the unstable `sort.Slice` gives no stability
guarantee — and `CalculateTopMarkPxDiffs` returns at most `topN`
results. -/
theorem C1_results_sorted_desc :
    (∀ (matchList : List MatchingSymbol) (topN : ℕ) (minDiff : ℚ),
      List.Sorted (pdDescOrder DiffResult.PercentDiff)
        (CalculateTopMarkPxDiffs matchList topN minDiff) ∧
      (CalculateTopMarkPxDiffs matchList topN minDiff).length ≤ topN) ∧
    (∀ (entries : List PairBooks) (config : TradingConfig),
      List.Sorted (pdDescOrder RealArbitrageResult.PercentDiff)
        (CalculateRealArbitrageOpportunities entries config)) := by
  refine ⟨fun matchList topN minDiff => ⟨?_, ?_⟩, fun entries config => ?_⟩
  · exact (List.sorted_insertionSort _ _).sublist
      (List.take_sublist _ _)
  · exact List.length_take_le _ _
  · exact List.sorted_insertionSort _ _

/-- counterexample to C4 as stated: with asks `[(100,1)]` and a
requested buy size of zero, the code computes
`weightedPrice = totalCost/tradeSize = 0/0` (NaN under Go float64,
0 in this exact-rational model), which is not the best price 100,
and the slippage is not zero either. -/
theorem C4_counterexample :
    ¬ ∃ r, CalculateWeightedPrice
        { InstID := "S", Bids := [], Asks := [⟨100, 1, 1⟩], TS := "" } "buy" 0 = some r ∧
      r.WeightedPrice = 100 ∧ r.Slippage = 0 ∧ r.Liquidity = 0 := by
  rintro ⟨r, hr, hwp, -, -⟩
  have hval : CalculateWeightedPrice
      { InstID := "S", Bids := [], Asks := [⟨100, 1, 1⟩], TS := "" } "buy" 0 =
      some { Symbol := "S", Side := "buy", TradeSize := 0, WeightedPrice := 0,
             TotalCost := 0, Liquidity := 0, HasEnoughLiquidity := true,
             Slippage := -100 } := by
    norm_num [CalculateWeightedPrice, fillLevels]
  rw [hval] at hr
  cases hr
  norm_num at hwp

/-- C4 as amended: with a requested size of zero and a non-empty
relevant side whose best price is non-zero,
`CalculateWeightedPrice` reports `hasEnoughLiquidity = true`,
`totalCost = 0` and `liquidity = 0`, but the weighted price is the
degenerate quotient `0/0` (0 in this exact-rational model, NaN under
Go float64) rather than the best price, and the slippage is the
degenerate value `((0-best)/best)*100 = -100` for buys and
`((best-0)/best)*100 = 100` for sells rather than zero. -/
theorem C4_weightedPrice_zero_size (book : OrderBook) (l : OrderBookLevel)
    (rest : List OrderBookLevel) (hp : l.Price ≠ 0) :
    (book.Asks = l :: rest →
      CalculateWeightedPrice book "buy" 0 =
        some { Symbol := book.InstID, Side := "buy", TradeSize := 0, WeightedPrice := 0,
               TotalCost := 0, Liquidity := 0, HasEnoughLiquidity := true,
               Slippage := -100 }) ∧
    (book.Bids = l :: rest →
      CalculateWeightedPrice book "sell" 0 =
        some { Symbol := book.InstID, Side := "sell", TradeSize := 0, WeightedPrice := 0,
               TotalCost := 0, Liquidity := 0, HasEnoughLiquidity := true,
               Slippage := 100 }) := by
  have h0 : fillLevels (l :: rest) 0 0 0 = (0, 0, 0) :=
    fillLevels_of_nonpos _ _ _ _ le_rfl
  constructor
  · intro hA
    simp [CalculateWeightedPrice, hA, h0, zero_sub, neg_div, div_self hp]
  · intro hB
    simp [CalculateWeightedPrice, hB, h0, sub_zero, div_self hp]

/-- witness for the amended C4 at asks `[(100,1)]`. -/
theorem C4_weightedPrice_zero_size_witness :
    CalculateWeightedPrice
      { InstID := "S", Bids := [], Asks := [⟨100, 1, 1⟩], TS := "" } "buy" 0 =
    some { Symbol := "S", Side := "buy", TradeSize := 0, WeightedPrice := 0,
           TotalCost := 0, Liquidity := 0, HasEnoughLiquidity := true,
           Slippage := -100 } :=
  (C4_weightedPrice_zero_size
      { InstID := "S", Bids := [], Asks := [⟨100, 1, 1⟩], TS := "" }
      ⟨100, 1, 1⟩ [] (by norm_num)).1 rfl

theorem computeDiff_of_pos (m : MatchingSymbol) (x y : ℚ)
    (hx : m.Margin.MarkPx = some x) (hy : m.Swap.MarkPx = some y)
    (h1 : 0 < x) (h2 : 0 < y) :
    computeDiff 0 m =
      some { BaseSymbol := m.BaseSymbol, MarginMarkPx := x, SwapMarkPx := y,
             PercentDiff := 100 * |y - x| / ((x + y) / 2), ActualDiff := y - x,
             IsContango := decide (y - x > 0),
             TermStructure := if y - x > 0 then "Contango" else "Backwardation" } := by
  have hor : ¬ (x ≤ 0 ∨ y ≤ 0) := by push_neg; exact ⟨h1, h2⟩
  have hpd : ¬ (100 * |y - x| / ((x + y) / 2) < 0) := by
    refine not_lt.mpr ?_
    have hmean : (0:ℚ) < (x + y) / 2 := by linarith
    positivity
  simp [computeDiff, ParseFloat, hx, hy, hor, hpd]

/-- C8: for every matched pair whose two reference prices parse to
positive values `a` (margin) and `b` (swap), the computed
`percentDiff` equals `100*|a-b| / ((a+b)/2)`, and the value is
invariant under swapping the two venues' prices. -/
theorem C8_percentDiff_symmetric (m m' : MatchingSymbol) (a b : ℚ)
    (hma : m.Margin.MarkPx = some a) (hmb : m.Swap.MarkPx = some b)
    (hna : m'.Margin.MarkPx = some b) (hnb : m'.Swap.MarkPx = some a)
    (ha : 0 < a) (hb : 0 < b) :
    ∃ d d', computeDiff 0 m = some d ∧ computeDiff 0 m' = some d' ∧
      d.PercentDiff = 100 * |a - b| / ((a + b) / 2) ∧
      d'.PercentDiff = d.PercentDiff := by
  refine ⟨_, _, computeDiff_of_pos m a b hma hmb ha hb,
    computeDiff_of_pos m' b a hna hnb hb ha, ?_, ?_⟩
  · simp [abs_sub_comm]
  · simp [abs_sub_comm b a, add_comm b a]

/-- witness for C8, which is Scenario 1 of the specification: margin
price 100 and swap price 100.3 give `percentDiff = 600/2003`
(≈ 0.2996%), and swapping the prices gives the same value. -/
theorem C8_percentDiff_symmetric_witness :
    ∃ d d',
      computeDiff 0 ⟨"BTC",
        ⟨"BTC-USDT", "MARGIN", "BTC", "USDT", "live", some 100, "", "", "", "", ""⟩,
        ⟨"BTC-USDT-SWAP", "SWAP", "BTC", "USDT", "live", some 100.3, "", "", "", "", ""⟩⟩ =
          some d ∧
      computeDiff 0 ⟨"BTC",
        ⟨"BTC-USDT", "MARGIN", "BTC", "USDT", "live", some 100.3, "", "", "", "", ""⟩,
        ⟨"BTC-USDT-SWAP", "SWAP", "BTC", "USDT", "live", some 100, "", "", "", "", ""⟩⟩ =
          some d' ∧
      d.PercentDiff = 600 / 2003 ∧ d'.PercentDiff = d.PercentDiff := by
  obtain ⟨d, d', h1, h2, h3, h4⟩ :=
    C8_percentDiff_symmetric
      ⟨"BTC", ⟨"BTC-USDT", "MARGIN", "BTC", "USDT", "live", some 100, "", "", "", "", ""⟩,
              ⟨"BTC-USDT-SWAP", "SWAP", "BTC", "USDT", "live", some 100.3, "", "", "", "", ""⟩⟩
      ⟨"BTC", ⟨"BTC-USDT", "MARGIN", "BTC", "USDT", "live", some 100.3, "", "", "", "", ""⟩,
              ⟨"BTC-USDT-SWAP", "SWAP", "BTC", "USDT", "live", some 100, "", "", "", "", ""⟩⟩
      100 100.3 rfl rfl rfl rfl (by norm_num) (by norm_num)
  refine ⟨d, d', h1, h2, ?_, h4⟩
  rw [h3, show |(100:ℚ) - 100.3| = 0.3 by rw [abs_of_neg (by norm_num)]; norm_num]
  norm_num

/-- C7: `EstimateFees` returns `2*spotTaker + 2*swapTaker` for a
contango result; for a backwardation result it adds one hour of
borrow cost, taken from the per-asset override when an entry exists
and is strictly positive, and from the schedule's default
`MarginBorrow` otherwise. -/
theorem C7_estimateFees (diff : DiffResult) (fees : FeeInfo)
    (borrowRates : String → Option ℚ) :
    (diff.TermStructure = "Contango" →
      EstimateFees diff fees borrowRates = 2 * fees.SpotTaker + 2 * fees.SwapTaker) ∧
    (diff.TermStructure = "Backwardation" →
      (∀ r, borrowRates diff.BaseSymbol = some r → 0 < r →
        EstimateFees diff fees borrowRates =
          2 * fees.SpotTaker + 2 * fees.SwapTaker + r) ∧
      (borrowRates diff.BaseSymbol = none →
        EstimateFees diff fees borrowRates =
          2 * fees.SpotTaker + 2 * fees.SwapTaker + fees.MarginBorrow) ∧
      (∀ r, borrowRates diff.BaseSymbol = some r → r ≤ 0 →
        EstimateFees diff fees borrowRates =
          2 * fees.SpotTaker + 2 * fees.SwapTaker + fees.MarginBorrow)) := by
  constructor
  · intro h
    simp [EstimateFees, h]
    ring
  · intro h
    refine ⟨fun r hr hpos => ?_, fun hr => ?_, fun r hr hnonpos => ?_⟩
    · simp [EstimateFees, h, hr, hpos]
      ring
    · simp [EstimateFees, h, hr]
      ring
    · simp [EstimateFees, h, hr, not_lt.mpr hnonpos]
      ring

/-- witness for C7: with `spotTaker = 0.001` and `swapTaker = 0.0005`
(Scenario 2 of the specification) the contango round-trip fee is
`0.003`; a backwardation result adds the positive per-asset override
when present, and the schedule default when the override is missing
or non-positive. -/
theorem C7_estimateFees_witness :
    EstimateFees ⟨"BTC", 100, 101, 1, 1, true, "Contango"⟩ ⟨0.001, 0.0005, 0.0002⟩
        (fun s => if s = "BTC" then some 0.003 else none) = 0.003 ∧
    EstimateFees ⟨"BTC", 101, 100, 1, -1, false, "Backwardation"⟩ ⟨0.001, 0.0005, 0.0002⟩
        (fun s => if s = "BTC" then some 0.003 else none) = 0.006 ∧
    EstimateFees ⟨"BTC", 101, 100, 1, -1, false, "Backwardation"⟩ ⟨0.001, 0.0005, 0.0002⟩
        (fun _ => none) = 0.0032 ∧
    EstimateFees ⟨"BTC", 101, 100, 1, -1, false, "Backwardation"⟩ ⟨0.001, 0.0005, 0.0002⟩
        (fun s => if s = "BTC" then some (-1) else none) = 0.0032 := by
  refine ⟨?_, ?_, ?_, ?_⟩
  · rw [(C7_estimateFees ⟨"BTC", 100, 101, 1, 1, true, "Contango"⟩ ⟨0.001, 0.0005, 0.0002⟩
      (fun s => if s = "BTC" then some 0.003 else none)).1 rfl]
    norm_num
  · rw [((C7_estimateFees ⟨"BTC", 101, 100, 1, -1, false, "Backwardation"⟩ ⟨0.001, 0.0005, 0.0002⟩
      (fun s => if s = "BTC" then some 0.003 else none)).2 rfl).1 0.003 (by norm_num)
      (by norm_num)]
    norm_num
  · rw [((C7_estimateFees ⟨"BTC", 101, 100, 1, -1, false, "Backwardation"⟩ ⟨0.001, 0.0005, 0.0002⟩
      (fun _ => none)).2 rfl).2.1 rfl]
    norm_num
  · rw [((C7_estimateFees ⟨"BTC", 101, 100, 1, -1, false, "Backwardation"⟩ ⟨0.001, 0.0005, 0.0002⟩
      (fun s => if s = "BTC" then some (-1) else none)).2 rfl).2.2 (-1) (by norm_num)
      (by norm_num)]
    norm_num

/-- C5: the per-pair evaluator rejects a pair (produces no result)
when the margin reference price is non-positive, when any of the four
legs — buy and sell on each venue, all priced at the base-asset
quantity `tradeSizeUSD/marginPrice` — lacks liquidity, or when any
leg's slippage exceeds `maxSlippage`; otherwise it computes the
contango and backwardation percentages over the weighted prices,
rejects the pair when neither is positive, and emits the direction
with the larger positive percentage (ties going to backwardation,
since the contango branch requires strictly larger). -/
theorem C5_evalPair_evaluator (config : TradingConfig) (pr : MatchingSymbol)
    (mb sb : OrderBook) (p : ℚ) (hp : pr.Margin.MarkPx = some p)
    (mBuy mSell sBuy sSell : WeightedPriceResult)
    (hmb : CalculateWeightedPrice mb "buy" (config.TradeSizeUSD / p) = some mBuy)
    (hms : CalculateWeightedPrice mb "sell" (config.TradeSizeUSD / p) = some mSell)
    (hsb : CalculateWeightedPrice sb "buy" (config.TradeSizeUSD / p) = some sBuy)
    (hss : CalculateWeightedPrice sb "sell" (config.TradeSizeUSD / p) = some sSell) :
    (p ≤ 0 → evalPair config ⟨pr, some mb, some sb⟩ = none) ∧
    (0 < p →
      (¬ (mBuy.HasEnoughLiquidity ∧ mSell.HasEnoughLiquidity ∧
          sBuy.HasEnoughLiquidity ∧ sSell.HasEnoughLiquidity) →
        evalPair config ⟨pr, some mb, some sb⟩ = none) ∧
      ((mBuy.HasEnoughLiquidity ∧ mSell.HasEnoughLiquidity ∧
          sBuy.HasEnoughLiquidity ∧ sSell.HasEnoughLiquidity) →
        ((mBuy.Slippage > config.MaxSlippage ∨ mSell.Slippage > config.MaxSlippage ∨
            sBuy.Slippage > config.MaxSlippage ∨ sSell.Slippage > config.MaxSlippage) →
          evalPair config ⟨pr, some mb, some sb⟩ = none) ∧
        (¬ (mBuy.Slippage > config.MaxSlippage ∨ mSell.Slippage > config.MaxSlippage ∨
            sBuy.Slippage > config.MaxSlippage ∨ sSell.Slippage > config.MaxSlippage) →
          ((((sSell.WeightedPrice - mBuy.WeightedPrice) /
                ((sSell.WeightedPrice + mBuy.WeightedPrice) / 2)) * 100 ≤ 0 ∧
            ((mSell.WeightedPrice - sBuy.WeightedPrice) /
                ((mSell.WeightedPrice + sBuy.WeightedPrice) / 2)) * 100 ≤ 0 →
            evalPair config ⟨pr, some mb, some sb⟩ = none) ∧
          (0 < ((sSell.WeightedPrice - mBuy.WeightedPrice) /
                ((sSell.WeightedPrice + mBuy.WeightedPrice) / 2)) * 100 ∨
           0 < ((mSell.WeightedPrice - sBuy.WeightedPrice) /
                ((mSell.WeightedPrice + sBuy.WeightedPrice) / 2)) * 100 →
            ∃ res, evalPair config ⟨pr, some mb, some sb⟩ = some res ∧
              res.PercentDiff =
                max (((sSell.WeightedPrice - mBuy.WeightedPrice) /
                    ((sSell.WeightedPrice + mBuy.WeightedPrice) / 2)) * 100)
                  (((mSell.WeightedPrice - sBuy.WeightedPrice) /
                    ((mSell.WeightedPrice + sBuy.WeightedPrice) / 2)) * 100) ∧
              res.TermStructure =
                (if ((mSell.WeightedPrice - sBuy.WeightedPrice) /
                      ((mSell.WeightedPrice + sBuy.WeightedPrice) / 2)) * 100 <
                    ((sSell.WeightedPrice - mBuy.WeightedPrice) /
                      ((sSell.WeightedPrice + mBuy.WeightedPrice) / 2)) * 100
                  then "Contango" else "Backwardation") ∧
              res.IsContango =
                decide (((mSell.WeightedPrice - sBuy.WeightedPrice) /
                      ((mSell.WeightedPrice + sBuy.WeightedPrice) / 2)) * 100 <
                    ((sSell.WeightedPrice - mBuy.WeightedPrice) /
                      ((sSell.WeightedPrice + mBuy.WeightedPrice) / 2)) * 100)))))) := by
  constructor
  · intro hple
    simp [evalPair, ParseFloat, hp, hple]
  · intro hppos
    have hnle : ¬ p ≤ 0 := not_le.mpr hppos
    constructor
    · intro hliq
      simp [evalPair, ParseFloat, hp, hnle, hmb, hms, hsb, hss, hliq]
    · intro hliq
      constructor
      · intro hslip
        simp [evalPair, ParseFloat, hp, hnle, hmb, hms, hsb, hss, hliq, hslip]
      · intro hslip
        constructor
        · intro hneg
          have h1 : ¬ (((mSell.WeightedPrice - sBuy.WeightedPrice) /
              ((mSell.WeightedPrice + sBuy.WeightedPrice) / 2)) * 100 <
              ((sSell.WeightedPrice - mBuy.WeightedPrice) /
              ((sSell.WeightedPrice + mBuy.WeightedPrice) / 2)) * 100 ∧
              0 < ((sSell.WeightedPrice - mBuy.WeightedPrice) /
              ((sSell.WeightedPrice + mBuy.WeightedPrice) / 2)) * 100) := by
            rintro ⟨-, hcp⟩
            exact absurd hcp (not_lt.mpr hneg.1)
          have h2 : ¬ (0 < ((mSell.WeightedPrice - sBuy.WeightedPrice) /
              ((mSell.WeightedPrice + sBuy.WeightedPrice) / 2)) * 100) :=
            not_lt.mpr hneg.2
          simp only [evalPair, ParseFloat, hp, hmb, hms, hsb, hss]
          rw [if_neg hnle, if_neg (not_not_intro hliq), if_neg hslip, if_neg h1, if_neg h2]
        · intro hpos
          by_cases hcb : ((mSell.WeightedPrice - sBuy.WeightedPrice) /
              ((mSell.WeightedPrice + sBuy.WeightedPrice) / 2)) * 100 <
              ((sSell.WeightedPrice - mBuy.WeightedPrice) /
              ((sSell.WeightedPrice + mBuy.WeightedPrice) / 2)) * 100
          · have hcp : 0 < ((sSell.WeightedPrice - mBuy.WeightedPrice) /
                ((sSell.WeightedPrice + mBuy.WeightedPrice) / 2)) * 100 := by
              rcases hpos with h | h
              · exact h
              · exact lt_trans h hcb
            refine ⟨⟨pr.BaseSymbol, mBuy.WeightedPrice, mSell.WeightedPrice,
                sBuy.WeightedPrice, sSell.WeightedPrice,
                ((sSell.WeightedPrice - mBuy.WeightedPrice) /
                  ((sSell.WeightedPrice + mBuy.WeightedPrice) / 2)) * 100,
                sSell.WeightedPrice - mBuy.WeightedPrice, true, "Contango",
                mBuy.Liquidity, sSell.Liquidity, true, mBuy.Slippage, sSell.Slippage⟩,
              ?_, ?_, ?_, ?_⟩
            · simp only [evalPair, ParseFloat, hp, hmb, hms, hsb, hss]
              rw [if_neg hnle, if_neg (not_not_intro hliq), if_neg hslip,
                if_pos ⟨hcb, hcp⟩]
            · exact (max_eq_left (le_of_lt hcb)).symm
            · rw [if_pos hcb]
            · simp [hcb]
          · have hbp : 0 < ((mSell.WeightedPrice - sBuy.WeightedPrice) /
                ((mSell.WeightedPrice + sBuy.WeightedPrice) / 2)) * 100 := by
              rcases hpos with h | h
              · exact lt_of_lt_of_le h (not_lt.mp hcb)
              · exact h
            have hno : ¬ (((mSell.WeightedPrice - sBuy.WeightedPrice) /
                ((mSell.WeightedPrice + sBuy.WeightedPrice) / 2)) * 100 <
                ((sSell.WeightedPrice - mBuy.WeightedPrice) /
                ((sSell.WeightedPrice + mBuy.WeightedPrice) / 2)) * 100 ∧
                0 < ((sSell.WeightedPrice - mBuy.WeightedPrice) /
                ((sSell.WeightedPrice + mBuy.WeightedPrice) / 2)) * 100) := by
              rintro ⟨h, -⟩
              exact hcb h
            refine ⟨⟨pr.BaseSymbol, mBuy.WeightedPrice, mSell.WeightedPrice,
                sBuy.WeightedPrice, sSell.WeightedPrice,
                ((mSell.WeightedPrice - sBuy.WeightedPrice) /
                  ((mSell.WeightedPrice + sBuy.WeightedPrice) / 2)) * 100,
                mSell.WeightedPrice - sBuy.WeightedPrice, false, "Backwardation",
                mSell.Liquidity, sBuy.Liquidity, true, mSell.Slippage, sBuy.Slippage⟩,
              ?_, ?_, ?_, ?_⟩
            · simp only [evalPair, ParseFloat, hp, hmb, hms, hsb, hss]
              rw [if_neg hnle, if_neg (not_not_intro hliq), if_neg hslip,
                if_neg hno, if_pos hbp]
            · exact (max_eq_right (not_lt.mp hcb)).symm
            · rw [if_neg hcb]
            · simp [hcb]

/-- witness for C5: margin book asks 10@100 / bids 10@99, swap book
asks 10@101 / bids 10@100.5, margin mark price 100, trade size 100
USD (one base unit): every leg has liquidity and zero slippage,
contango percent `200/401` beats backwardation percent `-2`, so the
contango direction is emitted. -/
theorem C5_evalPair_evaluator_witness :
    ∃ res, evalPair ⟨100, 10000, 0.5, 20⟩
        ⟨⟨"BTC", ⟨"BTC-USDT", "MARGIN", "BTC", "USDT", "live", some 100, "", "", "", "", ""⟩,
                 ⟨"BTC-USDT-SWAP", "SWAP", "BTC", "USDT", "live", some 100, "", "", "", "", ""⟩⟩,
          some ⟨"BTC-USDT", [⟨99, 10, 1⟩], [⟨100, 10, 1⟩], ""⟩,
          some ⟨"BTC-USDT-SWAP", [⟨100.5, 10, 1⟩], [⟨101, 10, 1⟩], ""⟩⟩ = some res ∧
      res.PercentDiff = 200 / 401 ∧ res.TermStructure = "Contango" ∧
      res.IsContango = true := by
  have h := C5_evalPair_evaluator ⟨100, 10000, 0.5, 20⟩
      ⟨"BTC", ⟨"BTC-USDT", "MARGIN", "BTC", "USDT", "live", some 100, "", "", "", "", ""⟩,
              ⟨"BTC-USDT-SWAP", "SWAP", "BTC", "USDT", "live", some 100, "", "", "", "", ""⟩⟩
      ⟨"BTC-USDT", [⟨99, 10, 1⟩], [⟨100, 10, 1⟩], ""⟩
      ⟨"BTC-USDT-SWAP", [⟨100.5, 10, 1⟩], [⟨101, 10, 1⟩], ""⟩
      100 rfl
      ⟨"BTC-USDT", "buy", 1, 100, 100, 100, true, 0⟩
      ⟨"BTC-USDT", "sell", 1, 99, 99, 99, true, 0⟩
      ⟨"BTC-USDT-SWAP", "buy", 1, 101, 101, 101, true, 0⟩
      ⟨"BTC-USDT-SWAP", "sell", 1, 100.5, 100.5, 100.5, true, 0⟩
      (by norm_num [CalculateWeightedPrice, fillLevels])
      (by norm_num [CalculateWeightedPrice, fillLevels,
        (show ("sell" : String) ≠ "buy" by decide)])
      (by norm_num [CalculateWeightedPrice, fillLevels])
      (by norm_num [CalculateWeightedPrice, fillLevels,
        (show ("sell" : String) ≠ "buy" by decide)])
  obtain ⟨res, heq, hpd, hts, hic⟩ :=
    ((((h.2 (by norm_num)).2 ⟨rfl, rfl, rfl, rfl⟩).2 (by norm_num)).2 (by norm_num))
  refine ⟨res, heq, ?_, ?_, ?_⟩
  · rw [hpd, max_eq_left (by norm_num)]
    norm_num
  · rw [hts, if_pos (by norm_num)]
  · rw [hic]
    simp only [decide_eq_true_eq]
    norm_num

/-- C6: a ranked result appears in the final printed output of either
reporting function exactly when `percentDiff - feeFraction*100` is at
least the fixed, non-configurable floor 0.06 (the fee for a symbol
missing from the map being the Go zero value 0). -/
theorem C6_profitability_filter :
    (∀ (diffs : List DiffResult) (feesMap : String → Option ℚ) (d : DiffResult),
      d ∈ printedTopMarkPxDiffs diffs feesMap ↔
        d ∈ diffs ∧ 0.06 ≤ d.PercentDiff - (feesMap d.BaseSymbol).getD 0 * 100) ∧
    (∀ (results : List RealArbitrageResult) (feesMap : String → Option ℚ)
        (r : RealArbitrageResult),
      r ∈ printedRealArbitrageResults results feesMap ↔
        r ∈ results ∧ 0.06 ≤ r.PercentDiff - (feesMap r.BaseSymbol).getD 0 * 100) := by
  constructor
  · intro diffs feesMap d
    simp [printedTopMarkPxDiffs, List.mem_filter, not_lt]
  · intro results feesMap r
    simp [printedRealArbitrageResults, List.mem_filter, not_lt]

theorem lookupSym_upsert (m : List (String × Instrument)) (k k' : String) (v : Instrument) :
    lookupSym (upsert m k v) k' = if k = k' then some v else lookupSym m k' := by
  induction m with
  | nil =>
    by_cases h : k = k' <;> simp [upsert, lookupSym, List.find?, h]
  | cons hd tl ih =>
    obtain ⟨k₀, v₀⟩ := hd
    by_cases h1 : k₀ = k
    · subst h1
      by_cases h2 : k₀ = k' <;> simp [upsert, lookupSym, List.find?, h2]
    · by_cases h2 : k₀ = k'
      · subst h2
        have hk : ¬ k = k₀ := fun h => h1 h.symm
        simp [upsert, lookupSym, List.find?, h1, hk]
      · simp only [upsert, if_neg h1]
        by_cases h3 : k = k'
        · subst h3
          simpa [lookupSym, List.find?, h2] using ih
        · simpa [lookupSym, List.find?, h2, h3] using ih

theorem lookupSym_foldl (insts : List Instrument) :
    ∀ (m : List (String × Instrument)) (k : String),
      lookupSym (insts.foldl (fun m' inst => upsert m' (ExtractBaseSymbol inst.InstID) inst) m) k =
      insts.foldl (fun acc inst =>
        if ExtractBaseSymbol inst.InstID = k then some inst else acc) (lookupSym m k) := by
  induction insts with
  | nil => intro m k; rfl
  | cons i rest ih =>
    intro m k
    simp only [List.foldl_cons]
    rw [ih]
    congr 1
    rw [lookupSym_upsert]

theorem lookupSym_buildSymbolMap (insts : List Instrument) (k : String) :
    lookupSym (buildSymbolMap insts) k = lastWithKey insts k := by
  unfold buildSymbolMap lastWithKey
  rw [lookupSym_foldl]
  simp [lookupSym, List.find?]

theorem keys_upsert (m : List (String × Instrument)) (k : String) (v : Instrument) :
    (upsert m k v).map Prod.fst =
      if k ∈ m.map Prod.fst then m.map Prod.fst else m.map Prod.fst ++ [k] := by
  induction m with
  | nil => simp [upsert]
  | cons hd tl ih =>
    obtain ⟨k₀, v₀⟩ := hd
    by_cases h1 : k₀ = k
    · subst h1
      simp [upsert]
    · have hk : ¬ k = k₀ := fun h => h1 h.symm
      simp only [upsert, if_neg h1, List.map_cons, ih]
      by_cases h2 : k ∈ tl.map Prod.fst <;> simp [h2, hk]

theorem keys_buildSymbolMap_nodup (insts : List Instrument) :
    ((buildSymbolMap insts).map Prod.fst).Nodup := by
  suffices h : ∀ m : List (String × Instrument), (m.map Prod.fst).Nodup →
      ((insts.foldl (fun m' inst => upsert m' (ExtractBaseSymbol inst.InstID) inst) m).map
        Prod.fst).Nodup by
    exact h [] (by simp)
  induction insts with
  | nil => intro m hm; exact hm
  | cons i rest ih =>
    intro m hm
    simp only [List.foldl_cons]
    apply ih
    rw [keys_upsert]
    by_cases h : ExtractBaseSymbol i.InstID ∈ m.map Prod.fst
    · simpa [h] using hm
    · simp [h, List.nodup_append, hm]

theorem mem_keys_iff_lookupSym (m : List (String × Instrument)) (k : String) :
    k ∈ m.map Prod.fst ↔ (lookupSym m k).isSome := by
  induction m with
  | nil => simp [lookupSym]
  | cons hd tl ih =>
    by_cases h : hd.1 = k
    · simp [lookupSym, List.find?, h]
    · have hstep : lookupSym (hd :: tl) k = lookupSym tl k := by
        simp only [lookupSym]
        rw [List.find?_cons_of_neg _ (by simpa using h)]
      rw [List.map_cons, List.mem_cons, or_iff_right (fun he => h he.symm), hstep]
      exact ih

theorem lastWithKey_isSome_iff (insts : List Instrument) (k : String) :
    (lastWithKey insts k).isSome ↔ ∃ i ∈ insts, ExtractBaseSymbol i.InstID = k := by
  suffices h : ∀ acc : Option Instrument,
      (insts.foldl (fun acc' inst =>
        if ExtractBaseSymbol inst.InstID = k then some inst else acc') acc).isSome ↔
      (acc.isSome ∨ ∃ i ∈ insts, ExtractBaseSymbol i.InstID = k) by
    simpa [lastWithKey] using h none
  induction insts with
  | nil => intro acc; simp
  | cons i rest ih =>
    intro acc
    simp only [List.foldl_cons, ih, List.mem_cons]
    by_cases h : ExtractBaseSymbol i.InstID = k
    · constructor
      · intro hx
        exact Or.inr ⟨i, Or.inl rfl, h⟩
      · intro hx
        simp [h]
    · constructor
      · rintro (ha | ⟨j, hj, hk⟩)
        · simp [h] at ha
          exact Or.inl ha
        · exact Or.inr ⟨j, Or.inr hj, hk⟩
      · rintro (ha | ⟨j, hj | hj, hk⟩)
        · exact Or.inl (by simp [h, ha])
        · exact absurd (hj ▸ hk) h
        · exact Or.inr ⟨j, hj, hk⟩

theorem lookupSym_of_mem_nodup (m : List (String × Instrument)) (p : String × Instrument)
    (hm : p ∈ m) (hn : (m.map Prod.fst).Nodup) : lookupSym m p.1 = some p.2 := by
  induction m with
  | nil => cases hm
  | cons hd tl ih =>
    rcases List.mem_cons.mp hm with rfl | hm'
    · simp [lookupSym, List.find?]
    · have hne : hd.1 ≠ p.1 := by
        intro he
        have hmem : p.1 ∈ tl.map Prod.fst := List.mem_map.mpr ⟨p, hm', rfl⟩
        rw [← he] at hmem
        exact (List.nodup_cons.mp (by simpa using hn)).1 hmem
      have ht := ih hm' (List.nodup_cons.mp (by simpa using hn)).2
      simpa [lookupSym, List.find?, hne] using ht

theorem map_baseSymbol_filterMap (m : List (String × Instrument))
    (sm : List (String × Instrument)) :
    (m.filterMap (fun p => (lookupSym sm p.1).map (fun s =>
        MatchingSymbol.mk p.1 p.2 s))).map MatchingSymbol.BaseSymbol =
    (m.filter (fun p => (lookupSym sm p.1).isSome)).map Prod.fst := by
  induction m with
  | nil => rfl
  | cons hd tl ih =>
    cases h : lookupSym sm hd.1 with
    | none => simp [List.filterMap_cons, List.filter_cons, h, ih]
    | some s => simp [List.filterMap_cons, List.filter_cons, h, ih]

/-- C9: `FindMatchingSymbols` emits exactly one pair per base-asset
key present in both venues' lookups (the emitted keys are
duplicate-free, and a key is emitted iff some instrument of each
venue carries it); within one venue the last instrument processed
under a key wins silently, and keys present in only one venue are
excluded without any error. -/
theorem C9_findMatchingSymbols (marginInstruments swapInstruments : List Instrument) :
    ((FindMatchingSymbols marginInstruments swapInstruments).map
        MatchingSymbol.BaseSymbol).Nodup ∧
    (∀ k : String,
      k ∈ (FindMatchingSymbols marginInstruments swapInstruments).map
          MatchingSymbol.BaseSymbol ↔
        ((∃ i ∈ marginInstruments, ExtractBaseSymbol i.InstID = k) ∧
         (∃ j ∈ swapInstruments, ExtractBaseSymbol j.InstID = k))) ∧
    (∀ p ∈ FindMatchingSymbols marginInstruments swapInstruments,
      lastWithKey marginInstruments p.BaseSymbol = some p.Margin ∧
      lastWithKey swapInstruments p.BaseSymbol = some p.Swap) := by
  refine ⟨?_, ?_, ?_⟩
  · rw [FindMatchingSymbols, map_baseSymbol_filterMap]
    exact (keys_buildSymbolMap_nodup marginInstruments).sublist
      ((List.filter_sublist _).map Prod.fst)
  · intro k
    rw [FindMatchingSymbols, map_baseSymbol_filterMap]
    rw [← lastWithKey_isSome_iff, ← lastWithKey_isSome_iff,
      ← lookupSym_buildSymbolMap, ← lookupSym_buildSymbolMap]
    constructor
    · intro hk
      rcases List.mem_map.mp hk with ⟨p, hp, rfl⟩
      rcases List.mem_filter.mp hp with ⟨hpm, hps⟩
      refine ⟨?_, by simpa using hps⟩
      rw [← mem_keys_iff_lookupSym]
      exact List.mem_map.mpr ⟨p, hpm, rfl⟩
    · rintro ⟨hm, hs⟩
      rw [← mem_keys_iff_lookupSym] at hm
      rcases List.mem_map.mp hm with ⟨p, hp, rfl⟩
      exact List.mem_map.mpr ⟨p, List.mem_filter.mpr ⟨hp, by simpa using hs⟩, rfl⟩
  · intro p hp
    rw [FindMatchingSymbols] at hp
    rcases List.mem_filterMap.mp hp with ⟨q, hq, hmap⟩
    rcases Option.map_eq_some'.mp hmap with ⟨s, hs, rfl⟩
    refine ⟨?_, ?_⟩
    · rw [← lookupSym_buildSymbolMap]
      exact lookupSym_of_mem_nodup _ q hq (keys_buildSymbolMap_nodup _)
    · rw [← lookupSym_buildSymbolMap]
      exact hs

/-- witness for C9: the margin venue lists two instruments under the
key "BTC" (the later "BTC-USD" entry wins) and one under "ETH"; the
swap venue lists only "BTC-USDT-SWAP": the "BTC" pair is emitted with
the last margin instrument, and the unmatched "ETH" key is excluded. -/
theorem C9_findMatchingSymbols_witness :
    "BTC" ∈ (FindMatchingSymbols
        [⟨"BTC-USDT", "MARGIN", "BTC", "USDT", "live", none, "", "", "", "", ""⟩,
         ⟨"BTC-USD", "MARGIN", "BTC", "USD", "live", none, "", "", "", "", ""⟩,
         ⟨"ETH-USDT", "MARGIN", "ETH", "USDT", "live", none, "", "", "", "", ""⟩]
        [⟨"BTC-USDT-SWAP", "SWAP", "BTC", "USDT", "live", none, "", "", "", "", ""⟩]).map
        MatchingSymbol.BaseSymbol ∧
    ¬ "ETH" ∈ (FindMatchingSymbols
        [⟨"BTC-USDT", "MARGIN", "BTC", "USDT", "live", none, "", "", "", "", ""⟩,
         ⟨"BTC-USD", "MARGIN", "BTC", "USD", "live", none, "", "", "", "", ""⟩,
         ⟨"ETH-USDT", "MARGIN", "ETH", "USDT", "live", none, "", "", "", "", ""⟩]
        [⟨"BTC-USDT-SWAP", "SWAP", "BTC", "USDT", "live", none, "", "", "", "", ""⟩]).map
        MatchingSymbol.BaseSymbol ∧
    lastWithKey
        [⟨"BTC-USDT", "MARGIN", "BTC", "USDT", "live", none, "", "", "", "", ""⟩,
         ⟨"BTC-USD", "MARGIN", "BTC", "USD", "live", none, "", "", "", "", ""⟩,
         ⟨"ETH-USDT", "MARGIN", "ETH", "USDT", "live", none, "", "", "", "", ""⟩] "BTC" =
      some ⟨"BTC-USD", "MARGIN", "BTC", "USD", "live", none, "", "", "", "", ""⟩ := by
  refine ⟨?_, ?_, ?_⟩
  · exact ((C9_findMatchingSymbols _ _).2.1 "BTC").mpr
      ⟨⟨⟨"BTC-USDT", "MARGIN", "BTC", "USDT", "live", none, "", "", "", "", ""⟩,
        by decide, by decide⟩,
       ⟨⟨"BTC-USDT-SWAP", "SWAP", "BTC", "USDT", "live", none, "", "", "", "", ""⟩,
        by decide, by decide⟩⟩
  · intro hmem
    have h := ((C9_findMatchingSymbols _ _).2.1 "ETH").mp hmem
    rcases h.2 with ⟨j, hj, hk⟩
    rcases List.mem_cons.mp hj with rfl | hj'
    · exact absurd hk (by decide)
    · cases hj'
  · decide

theorem splitOnDash_no_dash (l : List Char) (h : ¬ '-' ∈ l) : splitOnDash l = [l] := by
  induction l with
  | nil => rfl
  | cons c cs ih =>
    have hc : ¬ c = '-' := fun hc => h (by simp [hc])
    have ht := ih (fun hm => h (List.mem_cons_of_mem _ hm))
    simp [splitOnDash, hc, ht]

/-- C10: an instrument identifier containing no "-" separator is
returned unchanged by `ExtractBaseSymbol`, so such an instrument is
keyed under its entire identifier during symbol matching (it enters
the venue symbol map under that key) rather than being dropped or
failing. -/
theorem C10_extractBaseSymbol_no_separator (s : String) (h : ¬ '-' ∈ s.data) :
    ExtractBaseSymbol s = s ∧
    ∀ i : Instrument, i.InstID = s → lookupSym (buildSymbolMap [i]) s = some i := by
  have hs : splitOnDash s.data = [s.data] := splitOnDash_no_dash s.data h
  have hx : ExtractBaseSymbol s = s := by
    simp [ExtractBaseSymbol, hs]
  refine ⟨hx, ?_⟩
  intro i hi
  subst hi
  simp [buildSymbolMap, upsert, lookupSym, List.find?, hx]

/-- witness for C10 at the dash-free identifier "BTCUSDT". -/
theorem C10_extractBaseSymbol_no_separator_witness :
    ExtractBaseSymbol "BTCUSDT" = "BTCUSDT" ∧
    lookupSym (buildSymbolMap
        [⟨"BTCUSDT", "MARGIN", "BTC", "USDT", "live", none, "", "", "", "", ""⟩])
      "BTCUSDT" =
      some ⟨"BTCUSDT", "MARGIN", "BTC", "USDT", "live", none, "", "", "", "", ""⟩ := by
  have h := C10_extractBaseSymbol_no_separator "BTCUSDT" (by decide)
  exact ⟨h.1, h.2 _ rfl⟩

end Gookx
